import Mathlib

set_option maxRecDepth 40000

/- Verification of scripts/v8dasm-builders/patch-utils/semantic-patches.py.

The script locates known code constructs with re.search / re.sub and rewrites
them.  Its three patterns use only these regex constructs: literal characters,
the whitespace class under * and +, negated single-character classes under *,
optional literal characters, and one capturing group referenced as a
backreference in a replacement.  The engine below implements exactly these
constructs with Python's leftmost-match, greedy-with-backtracking semantics,
working on strings represented as List Char. -/

/-- Python whitespace class on str (Unicode whitespace). -/
def isPySpace (c : Char) : Bool :=
  c = ' ' || c = '\t' || c = '\n' || c = '\x0b' || c = '\x0c' || c = '\x0d' ||
  (0x1c ≤ c.toNat && c.toNat ≤ 0x1f) || c.toNat = 0x85 || c.toNat = 0xa0 ||
  c.toNat = 0x1680 || (0x2000 ≤ c.toNat && c.toNat ≤ 0x200a) ||
  c.toNat = 0x2028 || c.toNat = 0x2029 || c.toNat = 0x202f || c.toNat = 0x205f ||
  c.toNat = 0x3000

/-- One regex atom.  `star`/`plus` are greedy quantifiers over a single
character class, `opt` is an optional literal character. -/
inductive Atom where
  | lit (c : Char)
  | star (p : Char → Bool)
  | plus (p : Char → Bool)
  | opt (c : Char)

/-- All ways a greedy char-class star can split the input, longest first
(Python's backtracking priority order). -/
def starSplits (p : Char → Bool) : List Char → List (List Char × List Char)
  | [] => [([], [])]
  | c :: s =>
    if p c then
      ((starSplits p s).map (fun pr => (c :: pr.1, pr.2))) ++ [([], c :: s)]
    else [([], c :: s)]

/-- All matches of an atom list against a prefix of the input, as
(consumed, rest) pairs in Python's backtracking priority order. -/
def matchAtoms : List Atom → List Char → List (List Char × List Char)
  | [], s => [([], s)]
  | .lit _ :: _, [] => []
  | .lit c :: as, d :: s =>
    if d = c then (matchAtoms as s).map (fun pr => (c :: pr.1, pr.2)) else []
  | .star p :: as, s =>
    (starSplits p s).flatMap
      (fun w => (matchAtoms as w.2).map (fun pr => (w.1 ++ pr.1, pr.2)))
  | .plus _ :: _, [] => []
  | .plus p :: as, d :: s =>
    if p d then
      (starSplits p s).flatMap
        (fun w => (matchAtoms as w.2).map (fun pr => (d :: (w.1 ++ pr.1), pr.2)))
    else []
  | .opt _ :: as, [] => matchAtoms as []
  | .opt c :: as, d :: s =>
    if d = c then
      ((matchAtoms as s).map (fun pr => (c :: pr.1, pr.2))) ++ matchAtoms as (d :: s)
    else matchAtoms as (d :: s)

/-- A pattern with one capturing group covering a prefix of the pattern
(`grp` may be empty for patterns without groups). -/
structure GroupedRE where
  grp : List Atom
  rest : List Atom

/-- All matches of a grouped pattern at the start of the input, as
(group1, whole match, rest) triples in backtracking priority order. -/
def matchGrouped (g : GroupedRE) (s : List Char) :
    List (List Char × List Char × List Char) :=
  (matchAtoms g.grp s).flatMap
    (fun pr => (matchAtoms g.rest pr.2).map (fun qr => (pr.1, pr.1 ++ qr.1, qr.2)))

/-- First match of the pattern anchored at the start of the input, if any. -/
def tryMatch (g : GroupedRE) (s : List Char) :
    Option (List Char × List Char × List Char) :=
  (matchGrouped g s).head?

/-- re.search: leftmost match, returned as (prefix before the match,
group1, whole match, rest after the match). -/
def searchSplit (g : GroupedRE) :
    List Char → Option (List Char × List Char × List Char × List Char)
  | [] =>
    match tryMatch g [] with
    | some (g1, m, r) => some ([], g1, m, r)
    | none => none
  | c :: s =>
    match tryMatch g (c :: s) with
    | some (g1, m, r) => some ([], g1, m, r)
    | none =>
      (searchSplit g s).map (fun x => (c :: x.1, x.2.1, x.2.2.1, x.2.2.2))

/-- Fuel-driven loop of re.sub: replace every non-overlapping match from the
left.  All three patterns of the script only produce nonempty matches, so
fuel `length + 1` (as used by `resub`) never runs out. -/
def subFuel (g : GroupedRE) (repl : List Char → List Char) :
    Nat → List Char → List Char
  | 0, s => s
  | fuel + 1, s =>
    match searchSplit g s with
    | none => s
    | some (pre, g1, _, rest) => pre ++ repl g1 ++ subFuel g repl fuel rest

/-- re.sub over the whole input. -/
def resub (g : GroupedRE) (repl : List Char → List Char) (s : List Char) :
    List Char :=
  subFuel g repl (s.length + 1) s

/-- Substring occurrence test (used to state the token conclusions of the
spec's testable properties). -/
def occurs (t : List Char) : List Char → Bool
  | [] => t.isEmpty
  | c :: s => List.isPrefixOf t (c :: s) || occurs t s

/- ## The three patterns of the script -/

def ifStr : String := "if"
def lenStr : String := "len"
def tokStr : String := "kMaxShortPrintLength"
def checkEqStr : String := "CHECK_EQ"
def magicStr : String := "magic_number_"
def serMagicStr : String := "SerializedData::kMagicNumber"
def sccrStr : String := "SerializedCodeSanityCheckResult"
def scdscStr : String := "SerializedCodeData::SanityCheck"
def constStr : String := "const"
def resultStr : String := "result"
def swsStr : String := "SanityCheckWithoutSource"
def sjsStr : String := "SanityCheckJustSource"
def returnStr : String := "return"
def tailStr : String := "\n  return SerializedCodeSanityCheckResult::kSuccess;"

def ifL : List Char := ifStr.data
def lenL : List Char := lenStr.data
def tokL : List Char := tokStr.data
def checkEqL : List Char := checkEqStr.data
def magicL : List Char := magicStr.data
def serMagicL : List Char := serMagicStr.data
def sccrL : List Char := sccrStr.data
def scdscL : List Char := scdscStr.data
def constL : List Char := constStr.data
def resultL : List Char := resultStr.data
def swsL : List Char := swsStr.data
def sjsL : List Char := sjsStr.data
def returnL : List Char := returnStr.data
def tailL : List Char := tailStr.data

def litsL (l : List Char) : List Atom := l.map Atom.lit
def wsStar : Atom := .star isPySpace
def wsPlus : Atom := .plus isPySpace
def noCh (c : Char) : Atom := .star (fun d => d != c)

/-- string.cc pattern of `patch_string_cc`. -/
def pat1 : GroupedRE :=
  ⟨[],
   [wsStar] ++ litsL ifL ++ [wsStar, .lit '(', wsStar] ++ litsL lenL ++
   [wsStar, .lit '>', wsStar] ++ litsL tokL ++
   [wsStar, .lit ')', wsStar, .lit '{', noCh '}', .lit '}', wsStar, .opt '\n']⟩

/-- deserializer.cc pattern of `patch_deserializer_cc`. -/
def pat2 : GroupedRE :=
  ⟨[],
   [wsStar] ++ litsL checkEqL ++ [wsStar, .lit '(', wsStar] ++ litsL magicL ++
   [wsStar, .lit ',', wsStar] ++ litsL serMagicL ++
   [wsStar, .lit ')', wsStar, .opt ';', wsStar, .opt '\n']⟩

/-- code-serializer.cc pattern of `patch_code_serializer_cc`; the group
captures the function signature up to and including the opening brace. -/
def pat3 : GroupedRE :=
  ⟨litsL sccrL ++ [wsPlus] ++ litsL scdscL ++
     [wsStar, .lit '(', noCh ')', .lit ')', wsStar] ++ litsL constL ++
     [wsStar, .lit '{'],
   [wsStar] ++ litsL sccrL ++ [wsPlus] ++ litsL resultL ++
     [wsStar, .lit '=', wsStar] ++ litsL swsL ++
     [wsStar, .lit '(', wsStar, .lit ')', wsStar, .lit ';', wsStar] ++
     litsL ifL ++ [wsStar, .lit '(', noCh ')', .lit ')', wsStar] ++
     litsL returnL ++ [wsPlus] ++ litsL resultL ++ [wsStar, .lit ';', wsStar] ++
     litsL returnL ++ [wsPlus] ++ litsL sjsL ++
     [wsStar, .lit '(', noCh ')', .lit ')', wsStar, .lit ';']⟩

def repl1 : List Char → List Char := fun _ => '\n' :: []
def repl2 : List Char → List Char := fun _ => []
def repl3 : List Char → List Char := fun g1 => g1 ++ tailL

/- ## Filesystem model and the transformation executors -/

/-- Filesystem state: file contents keyed by path relative to the source
root, plus per-path read/write fault flags modelling I/O exceptions. -/
structure FS where
  files : String → Option (List Char)
  readFails : String → Bool
  writeFails : String → Bool

def FS.write (fs : FS) (path : String) (c : List Char) : FS :=
  ⟨fun q => if q = path then some c else fs.files q, fs.readFails, fs.writeFails⟩

/-- Per-rule outcome of one executor run. -/
inductive Outcome where
  | fileMissing
  | patternNotFound
  | noChange
  | applied
  | ioError
deriving DecidableEq

/-- The boolean the Python executor returns for each outcome: False for a
missing file and for read/write failures, True otherwise. -/
def outcomeSuccess : Outcome → Bool
  | .fileMissing => false
  | .ioError => false
  | .patternNotFound => true
  | .noChange => true
  | .applied => true

/-- Common shape of the three patch_* methods: existence check, read,
re.search, re.sub, no-change check, write back. -/
def runPatch (path : String) (g : GroupedRE) (repl : List Char → List Char)
    (fs : FS) : Outcome × FS :=
  match fs.files path with
  | none => (.fileMissing, fs)
  | some content =>
    if fs.readFails path then (.ioError, fs)
    else
      match searchSplit g content with
      | none => (.patternNotFound, fs)
      | some _ =>
        let nc := resub g repl content
        if nc = content then (.noChange, fs)
        else if fs.writeFails path then (.ioError, fs)
        else (.applied, fs.write path nc)

def stringCcPath : String := "src/objects/string.cc"
def deserializerCcPath : String := "src/snapshot/deserializer.cc"
def codeSerializerCcPath : String := "src/snapshot/code-serializer.cc"

def patch_string_cc : FS → Outcome × FS := runPatch stringCcPath pat1 repl1
def patch_deserializer_cc : FS → Outcome × FS :=
  runPatch deserializerCcPath pat2 repl2
/-- For code-serializer.cc the script has an extra branch after
pattern-not-found that only changes the log line (checking whether the file
already is in target state); both branches return True, so the outcome is
patternNotFound either way. -/
def patch_code_serializer_cc : FS → Outcome × FS :=
  runPatch codeSerializerCcPath pat3 repl3

/- ## Run coordinator (apply_all and main) -/

/-- What the coordinator sees from one rule invocation: the returned boolean,
or an exception escaping the rule (caught by the try/except in apply_all). -/
inductive ExecResult where
  | ok (b : Bool)
  | exn

structure RunState where
  sc : Nat
  fc : Nat
  fs : FS
  trace : List String

/-- One iteration of the loop of apply_all: invoke the rule, increment
exactly one of the two counters, record the invocation. -/
def stepRule (st : RunState) (nr : String × (FS → ExecResult × FS)) :
    RunState :=
  match nr.2 st.fs with
  | (.ok true, fs2) => ⟨st.sc + 1, st.fc, fs2, st.trace ++ [nr.1]⟩
  | (.ok false, fs2) => ⟨st.sc, st.fc + 1, fs2, st.trace ++ [nr.1]⟩
  | (.exn, fs2) => ⟨st.sc, st.fc + 1, fs2, st.trace ++ [nr.1]⟩

def applyAllAux : List (String × (FS → ExecResult × FS)) → RunState → RunState
  | [], st => st
  | r :: rest, st => applyAllAux rest (stepRule st r)

def applyAllGen (rules : List (String × (FS → ExecResult × FS))) (fs : FS) :
    RunState :=
  applyAllAux rules ⟨0, 0, fs, []⟩

def execOf (f : FS → Outcome × FS) : FS → ExecResult × FS :=
  fun fs => (.ok (outcomeSuccess (f fs).1), (f fs).2)

def nameStringCc : String := "string.cc"
def nameDeserializerCc : String := "deserializer.cc"
def nameCodeSerializerCc : String := "code-serializer.cc"

/-- The ordered catalogue of apply_all. -/
def catalogue : List (String × (FS → ExecResult × FS)) :=
  (nameStringCc, execOf patch_string_cc) ::
  (nameDeserializerCc, execOf patch_deserializer_cc) ::
  (nameCodeSerializerCc, execOf patch_code_serializer_cc) :: []

def apply_all (fs : FS) : RunState := applyAllGen catalogue fs

/-- The boolean apply_all returns: success_count > 0. -/
def apply_all_ok (fs : FS) : Bool := decide (0 < (apply_all fs).sc)

/-- Process exit code of main: 0 if apply_all reported success, else 1. -/
def mainExit (fs : FS) : Nat := if apply_all_ok fs then 0 else 1

/-- A filesystem with a single file and no I/O faults. -/
def mkFS1 (path : String) (c : List Char) : FS :=
  ⟨fun q => if q = path then some c else none, fun _ => false, fun _ => false⟩

/-- A filesystem with three files and no I/O faults. -/
def mkFS3 (p1 p2 p3 : String) (c1 c2 c3 : List Char) : FS :=
  ⟨fun q =>
    if q = p1 then some c1
    else if q = p2 then some c2
    else if q = p3 then some c3
    else none,
   fun _ => false, fun _ => false⟩

/- ## Matching lemmas -/

/-- The first (highest-priority) match of an atom list. -/
def headM (A : List Atom) (S M R : List Char) : Prop :=
  (matchAtoms A S).head? = some (M, R)

theorem exists_cons_of_headq {α : Type} {l : List α} {a : α}
    (h : l.head? = some a) : ∃ t, l = a :: t := by
  cases l with
  | nil => simp at h
  | cons x t =>
    simp at h
    exact ⟨t, by rw [h]⟩

/-- Boundary test: input empty or first character outside the class. -/
def headNot (p : Char → Bool) : List Char → Bool
  | [] => true
  | c :: _ => !(p c)

/-- Boundary test: input empty or first character different from `c`. -/
def headNe (c : Char) : List Char → Bool
  | [] => true
  | d :: _ => d != c

theorem headNot_of_cons {p : Char → Bool} {c : Char} {t : List Char}
    (h : p c = false) : headNot p (c :: t) = true := by
  simp [headNot, h]

theorem headNe_of_headNot {s : List Char} (h : headNot isPySpace s = true) :
    headNe '\n' s = true := by
  cases s with
  | nil => rfl
  | cons c t =>
    simp [headNot] at h
    simp [headNe]
    intro hc
    subst hc
    simp [isPySpace] at h

theorem headM_nil (s : List Char) : headM [] s [] s := rfl

theorem headM_lit {as : List Atom} {s m r : List Char} (c : Char)
    (h : headM as s m r) : headM (.lit c :: as) (c :: s) (c :: m) r := by
  obtain ⟨tl, htl⟩ := exists_cons_of_headq h
  simp [headM, matchAtoms, htl]

theorem headM_litsL {as : List Atom} {s m r : List Char} (t : List Char)
    (h : headM as s m r) : headM (litsL t ++ as) (t ++ s) (t ++ m) r := by
  induction t with
  | nil => simpa using h
  | cons c t ih => simpa [litsL] using headM_lit c ih

theorem starSplits_grdy {p : Char → Bool} {w s : List Char}
    (hw : ∀ c ∈ w, p c = true) (hs : headNot p s = true) :
    (starSplits p (w ++ s)).head? = some (w, s) := by
  induction w with
  | nil =>
    cases s with
    | nil => rfl
    | cons c s2 =>
      simp [headNot] at hs
      simp [starSplits, hs]
  | cons c w ih =>
    have hc : p c = true := hw c (by simp)
    have ih2 := ih (fun d hd => hw d (by simp [hd]))
    obtain ⟨tl, htl⟩ := exists_cons_of_headq ih2
    simp [starSplits, hc, htl]

theorem headM_star {as : List Atom} {s m r : List Char} (p : Char → Bool)
    (w : List Char) (hw : ∀ c ∈ w, p c = true) (hs : headNot p s = true)
    (h : headM as s m r) : headM (.star p :: as) (w ++ s) (w ++ m) r := by
  obtain ⟨tl1, e1⟩ := exists_cons_of_headq (starSplits_grdy hw hs)
  obtain ⟨tl2, e2⟩ := exists_cons_of_headq h
  simp [headM, matchAtoms, e1, e2]

theorem headM_plus {as : List Atom} {s m r : List Char} (p : Char → Bool)
    (w : List Char) (hne : w ≠ []) (hw : ∀ d ∈ w, p d = true)
    (hs : headNot p s = true) (h : headM as s m r) :
    headM (.plus p :: as) (w ++ s) (w ++ m) r := by
  match w, hne with
  | c :: w2, _ =>
    have hc : p c = true := hw c (by simp)
    have hg := @starSplits_grdy p w2 s
      (fun d hd => hw d (by simp [hd])) hs
    obtain ⟨tl1, e1⟩ := exists_cons_of_headq hg
    obtain ⟨tl2, e2⟩ := exists_cons_of_headq h
    simp [headM, matchAtoms, hc, e1, e2]

theorem headM_optSkip {as : List Atom} {s m r : List Char} {c : Char}
    (hs : headNe c s = true) (h : headM as s m r) :
    headM (.opt c :: as) s m r := by
  cases s with
  | nil =>
    obtain ⟨tl, htl⟩ := exists_cons_of_headq h
    simp [headM, matchAtoms, htl]
  | cons d s2 =>
    simp [headNe] at hs
    obtain ⟨tl, htl⟩ := exists_cons_of_headq h
    simp [headM, matchAtoms, hs, htl]

theorem headM_optTake {as : List Atom} {s m r : List Char} (c : Char)
    (h : headM as s m r) : headM (.opt c :: as) (c :: s) (c :: m) r := by
  obtain ⟨tl, htl⟩ := exists_cons_of_headq h
  simp [headM, matchAtoms, htl]

theorem tryMatch_headM {g : GroupedRE} {s m1 r1 m2 r : List Char}
    (h1 : headM g.grp s m1 r1) (h2 : headM g.rest r1 m2 r) :
    tryMatch g s = some (m1, m1 ++ m2, r) := by
  obtain ⟨t1, e1⟩ := exists_cons_of_headq h1
  obtain ⟨t2, e2⟩ := exists_cons_of_headq h2
  simp [tryMatch, matchGrouped, e1, e2]

/-- No match of `g` starts strictly inside `p` when the input is
`p ++ rest` (checked position by position). -/
def noStartIn (g : GroupedRE) : List Char → List Char → Bool
  | [], _ => true
  | c :: t, rest => (tryMatch g (c :: (t ++ rest))).isNone && noStartIn g t rest

theorem searchSplit_skip {g : GroupedRE} {rest g1 m r : List Char}
    (hm : tryMatch g rest = some (g1, m, r)) :
    ∀ {p : List Char}, noStartIn g p rest = true →
      searchSplit g (p ++ rest) = some (p, g1, m, r) := by
  intro p
  induction p with
  | nil =>
    intro _
    cases rest with
    | nil => simp [searchSplit, hm]
    | cons c s => simp [searchSplit, hm]
  | cons c t ih =>
    intro hp
    simp [noStartIn] at hp
    have h1 : tryMatch g (c :: (t ++ rest)) = none :=
      Option.isNone_iff_eq_none.mp (by simpa using hp.1)
    have h2 := ih hp.2
    simp [searchSplit, h1, h2]

theorem subFuel_none {g : GroupedRE} {repl : List Char → List Char}
    {s : List Char} (h : searchSplit g s = none) :
    ∀ n, subFuel g repl n s = s := by
  intro n
  cases n with
  | zero => rfl
  | succ k => simp [subFuel, h]

/-- One substitution: no match starts inside `p`, the match at the boundary
consumes exactly `core`, and no further match exists in `s`. -/
theorem resub_one {g : GroupedRE} (repl : List Char → List Char)
    {p core s g1 : List Char}
    (hp : noStartIn g p (core ++ s) = true)
    (hm : tryMatch g (core ++ s) = some (g1, core, s))
    (hs : searchSplit g s = none) :
    resub g repl (p ++ (core ++ s)) = p ++ (repl g1 ++ s) := by
  have hss := searchSplit_skip hm hp
  simp [resub, subFuel, hss, subFuel_none hs]

/- ## runPatch case lemmas -/

theorem runPatch_missing {path : String} {g : GroupedRE}
    {repl : List Char → List Char} {fs : FS} (h : fs.files path = none) :
    runPatch path g repl fs = (.fileMissing, fs) := by
  simp [runPatch, h]

theorem runPatch_readFail {path : String} {g : GroupedRE}
    {repl : List Char → List Char} {fs : FS} {c : List Char}
    (h : fs.files path = some c) (hr : fs.readFails path = true) :
    runPatch path g repl fs = (.ioError, fs) := by
  simp [runPatch, h, hr]

theorem runPatch_noMatch {path : String} {g : GroupedRE}
    {repl : List Char → List Char} {fs : FS} {c : List Char}
    (h : fs.files path = some c) (hr : fs.readFails path = false)
    (hs : searchSplit g c = none) :
    runPatch path g repl fs = (.patternNotFound, fs) := by
  simp [runPatch, h, hr, hs]

theorem runPatch_noChange {path : String} {g : GroupedRE}
    {repl : List Char → List Char} {fs : FS} {c : List Char} {x}
    (h : fs.files path = some c) (hr : fs.readFails path = false)
    (hs : searchSplit g c = some x) (he : resub g repl c = c) :
    runPatch path g repl fs = (.noChange, fs) := by
  simp [runPatch, h, hr, hs, he]

theorem runPatch_writeFail {path : String} {g : GroupedRE}
    {repl : List Char → List Char} {fs : FS} {c : List Char} {x}
    (h : fs.files path = some c) (hr : fs.readFails path = false)
    (hs : searchSplit g c = some x) (he : resub g repl c ≠ c)
    (hw : fs.writeFails path = true) :
    runPatch path g repl fs = (.ioError, fs) := by
  simp [runPatch, h, hr, hs, he, hw]

theorem runPatch_applied {path : String} {g : GroupedRE}
    {repl : List Char → List Char} {fs : FS} {c : List Char} {x}
    (h : fs.files path = some c) (hr : fs.readFails path = false)
    (hs : searchSplit g c = some x) (he : resub g repl c ≠ c)
    (hw : fs.writeFails path = false) :
    runPatch path g repl fs = (.applied, fs.write path (resub g repl c)) := by
  simp [runPatch, h, hr, hs, he, hw]

/- ## Boundary facts for the concrete literals -/

abbrev allWS (w : List Char) : Prop := ∀ c ∈ w, isPySpace c = true

theorem hbIf (X : List Char) : headNot isPySpace (ifL ++ X) = true := by
  apply headNot_of_cons; decide

theorem hbLen (X : List Char) : headNot isPySpace (lenL ++ X) = true := by
  apply headNot_of_cons; decide

theorem hbTok (X : List Char) : headNot isPySpace (tokL ++ X) = true := by
  apply headNot_of_cons; decide

theorem hbCheckEq (X : List Char) : headNot isPySpace (checkEqL ++ X) = true := by
  apply headNot_of_cons; decide

theorem hbMagic (X : List Char) : headNot isPySpace (magicL ++ X) = true := by
  apply headNot_of_cons; decide

theorem hbSerMagic (X : List Char) :
    headNot isPySpace (serMagicL ++ X) = true := by
  apply headNot_of_cons; decide

theorem hbSccr (X : List Char) : headNot isPySpace (sccrL ++ X) = true := by
  apply headNot_of_cons; decide

theorem hbScdsc (X : List Char) : headNot isPySpace (scdscL ++ X) = true := by
  apply headNot_of_cons; decide

theorem hbConst (X : List Char) : headNot isPySpace (constL ++ X) = true := by
  apply headNot_of_cons; decide

theorem hbResult (X : List Char) : headNot isPySpace (resultL ++ X) = true := by
  apply headNot_of_cons; decide

theorem hbSws (X : List Char) : headNot isPySpace (swsL ++ X) = true := by
  apply headNot_of_cons; decide

theorem hbSjs (X : List Char) : headNot isPySpace (sjsL ++ X) = true := by
  apply headNot_of_cons; decide

theorem hbReturn (X : List Char) : headNot isPySpace (returnL ++ X) = true := by
  apply headNot_of_cons; decide

/- ## Shapes of the constructs the three rules target -/

/-- A string-truncation guard block as matched by pat1: the w-parameters are
the whitespace runs the pattern tolerates, body is the brace-free block body;
a trailing newline closes the block's line. -/
def mkGuard (w0 w1 w2 w3 w4 w5 w6 body : List Char) : List Char :=
  w0 ++ ifL ++ w1 ++ ('(' :: w2) ++ lenL ++ w3 ++ ('>' :: w4) ++ tokL ++
  w5 ++ (')' :: w6) ++ ('{' :: body) ++ ('}' :: '\n' :: [])

/-- A magic-number assertion as matched by pat2, with its trailing semicolon
and line break. -/
def mkCheck (w0 w1 w2 w3 w4 w5 w6 : List Char) : List Char :=
  w0 ++ checkEqL ++ w1 ++ ('(' :: w2) ++ magicL ++ w3 ++ (',' :: w4) ++
  serMagicL ++ w5 ++ (')' :: w6) ++ (';' :: '\n' :: [])

/-- The SanityCheck signature as captured by pat3's group: up to and
including the opening brace. -/
def mkSig (u1 w2 params w3 w4 : List Char) : List Char :=
  sccrL ++ u1 ++ scdscL ++ w2 ++ ('(' :: params) ++ (')' :: w3) ++ constL ++
  w4 ++ ('{' :: [])

/-- The three-statement SanityCheck body as matched by pat3 after the
signature. -/
def mkBody (v1 v2 v3 v4 v5 v6 v7 v8 v9 cond v10 v11 v12 v13 v14 v15 arg v16 :
    List Char) : List Char :=
  v1 ++ sccrL ++ v2 ++ resultL ++ v3 ++ ('=' :: v4) ++ swsL ++ v5 ++
  ('(' :: v6) ++ (')' :: v7) ++ (';' :: v8) ++ ifL ++ v9 ++ ('(' :: cond) ++
  (')' :: v10) ++ returnL ++ v11 ++ resultL ++ v12 ++ (';' :: v13) ++
  returnL ++ v14 ++ sjsL ++ v15 ++ ('(' :: arg) ++ (')' :: v16) ++ (';' :: [])

/- ## The patterns match exactly these constructs -/

theorem pat1_found (w0 w1 w2 w3 w4 w5 w6 body s : List Char)
    (h0 : allWS w0) (h1 : allWS w1) (h2 : allWS w2) (h3 : allWS w3)
    (h4 : allWS w4) (h5 : allWS w5) (h6 : allWS w6)
    (hb : ∀ c ∈ body, (c != '}') = true)
    (hs : headNot isPySpace s = true) :
    tryMatch pat1 (mkGuard w0 w1 w2 w3 w4 w5 w6 body ++ s) =
      some ([], mkGuard w0 w1 w2 w3 w4 w5 w6 body, s) := by
  have a18 := headM_nil s
  have a17 := headM_optSkip (headNe_of_headNot hs) a18
  have a16 := headM_star isPySpace ('\n' :: []) (by decide) hs a17
  have a15 := headM_lit '}' a16
  have a14 := headM_star (fun d => d != '}') body hb
    (by apply headNot_of_cons; decide) a15
  have a13 := headM_lit '{' a14
  have a12 := headM_star isPySpace w6 h6 (by apply headNot_of_cons; decide) a13
  have a11 := headM_lit ')' a12
  have a10 := headM_star isPySpace w5 h5 (by apply headNot_of_cons; decide) a11
  have a9 := headM_litsL tokL a10
  have a8 := headM_star isPySpace w4 h4 (hbTok _) a9
  have a7 := headM_lit '>' a8
  have a6 := headM_star isPySpace w3 h3 (by apply headNot_of_cons; decide) a7
  have a5 := headM_litsL lenL a6
  have a4 := headM_star isPySpace w2 h2 (hbLen _) a5
  have a3 := headM_lit '(' a4
  have a2 := headM_star isPySpace w1 h1 (by apply headNot_of_cons; decide) a3
  have a1 := headM_litsL ifL a2
  have a0 := headM_star isPySpace w0 h0 (hbIf _) a1
  have hfin := @tryMatch_headM pat1 _ _ _ _ _ (headM_nil _) a0
  simpa [mkGuard, List.append_assoc] using hfin

theorem pat2_found (w0 w1 w2 w3 w4 w5 w6 s : List Char)
    (h0 : allWS w0) (h1 : allWS w1) (h2 : allWS w2) (h3 : allWS w3)
    (h4 : allWS w4) (h5 : allWS w5) (h6 : allWS w6)
    (hs : headNot isPySpace s = true) :
    tryMatch pat2 (mkCheck w0 w1 w2 w3 w4 w5 w6 ++ s) =
      some ([], mkCheck w0 w1 w2 w3 w4 w5 w6, s) := by
  have b12 := headM_nil s
  have b11 := headM_optSkip (headNe_of_headNot hs) b12
  have b10 := headM_star isPySpace ('\n' :: []) (by decide) hs b11
  have b9 := headM_optTake ';' b10
  have b8 := headM_star isPySpace w6 h6 (by apply headNot_of_cons; decide) b9
  have b7 := headM_lit ')' b8
  have b6 := headM_star isPySpace w5 h5 (by apply headNot_of_cons; decide) b7
  have b5 := headM_litsL serMagicL b6
  have b4 := headM_star isPySpace w4 h4 (hbSerMagic _) b5
  have b3 := headM_lit ',' b4
  have b2 := headM_star isPySpace w3 h3 (by apply headNot_of_cons; decide) b3
  have b1 := headM_litsL magicL b2
  have b0 := headM_star isPySpace w2 h2 (hbMagic _) b1
  have c3 := headM_lit '(' b0
  have c2 := headM_star isPySpace w1 h1 (by apply headNot_of_cons; decide) c3
  have c1 := headM_litsL checkEqL c2
  have c0 := headM_star isPySpace w0 h0 (hbCheckEq _) c1
  have hfin := @tryMatch_headM pat2 _ _ _ _ _ (headM_nil _) c0
  simpa [mkCheck, List.append_assoc] using hfin

theorem pat3_sig_headM (u1 w2 params w3 w4 R : List Char)
    (hu1 : allWS u1) (hu1n : u1 ≠ []) (h2 : allWS w2) (h3 : allWS w3)
    (h4 : allWS w4) (hp : ∀ c ∈ params, (c != ')') = true) :
    headM pat3.grp (mkSig u1 w2 params w3 w4 ++ R)
      (mkSig u1 w2 params w3 w4) R := by
  have g0 := headM_nil R
  have g1 := headM_lit '{' g0
  have g2 := headM_star isPySpace w4 h4 (by apply headNot_of_cons; decide) g1
  have g3 := headM_litsL constL g2
  have g4 := headM_star isPySpace w3 h3 (hbConst _) g3
  have g5 := headM_lit ')' g4
  have g6 := headM_star (fun d => d != ')') params hp
    (by apply headNot_of_cons; decide) g5
  have g7 := headM_lit '(' g6
  have g8 := headM_star isPySpace w2 h2 (by apply headNot_of_cons; decide) g7
  have g9 := headM_litsL scdscL g8
  have g10 := headM_plus isPySpace u1 hu1n hu1 (hbScdsc _) g9
  have g11 := headM_litsL sccrL g10
  simpa [mkSig, List.append_assoc] using g11

theorem pat3_body_headM
    (v1 v2 v3 v4 v5 v6 v7 v8 v9 cond v10 v11 v12 v13 v14 v15 arg v16 s :
      List Char)
    (k1 : allWS v1) (k2 : allWS v2) (k2n : v2 ≠ []) (k3 : allWS v3)
    (k4 : allWS v4) (k5 : allWS v5) (k6 : allWS v6) (k7 : allWS v7)
    (k8 : allWS v8) (k9 : allWS v9)
    (kc : ∀ c ∈ cond, (c != ')') = true)
    (k10 : allWS v10) (k11 : allWS v11) (k11n : v11 ≠ []) (k12 : allWS v12)
    (k13 : allWS v13) (k14 : allWS v14) (k14n : v14 ≠ []) (k15 : allWS v15)
    (ka : ∀ c ∈ arg, (c != ')') = true) (k16 : allWS v16) :
    headM pat3.rest
      (mkBody v1 v2 v3 v4 v5 v6 v7 v8 v9 cond v10 v11 v12 v13 v14 v15 arg v16
        ++ s)
      (mkBody v1 v2 v3 v4 v5 v6 v7 v8 v9 cond v10 v11 v12 v13 v14 v15 arg v16)
      s := by
  have d0 := headM_nil s
  have d1 := headM_lit ';' d0
  have d2 := headM_star isPySpace v16 k16 (by apply headNot_of_cons; decide) d1
  have d3 := headM_lit ')' d2
  have d4 := headM_star (fun d => d != ')') arg ka
    (by apply headNot_of_cons; decide) d3
  have d5 := headM_lit '(' d4
  have d6 := headM_star isPySpace v15 k15 (by apply headNot_of_cons; decide) d5
  have d7 := headM_litsL sjsL d6
  have d8 := headM_plus isPySpace v14 k14n k14 (hbSjs _) d7
  have d9 := headM_litsL returnL d8
  have d10 := headM_star isPySpace v13 k13 (hbReturn _) d9
  have d11 := headM_lit ';' d10
  have d12 := headM_star isPySpace v12 k12 (by apply headNot_of_cons; decide) d11
  have d13 := headM_litsL resultL d12
  have d14 := headM_plus isPySpace v11 k11n k11 (hbResult _) d13
  have d15 := headM_litsL returnL d14
  have d16 := headM_star isPySpace v10 k10 (hbReturn _) d15
  have d17 := headM_lit ')' d16
  have d18 := headM_star (fun d => d != ')') cond kc
    (by apply headNot_of_cons; decide) d17
  have d19 := headM_lit '(' d18
  have d20 := headM_star isPySpace v9 k9 (by apply headNot_of_cons; decide) d19
  have d21 := headM_litsL ifL d20
  have d22 := headM_star isPySpace v8 k8 (hbIf _) d21
  have d23 := headM_lit ';' d22
  have d24 := headM_star isPySpace v7 k7 (by apply headNot_of_cons; decide) d23
  have d25 := headM_lit ')' d24
  have d26 := headM_star isPySpace v6 k6 (by apply headNot_of_cons; decide) d25
  have d27 := headM_lit '(' d26
  have d28 := headM_star isPySpace v5 k5 (by apply headNot_of_cons; decide) d27
  have d29 := headM_litsL swsL d28
  have d30 := headM_star isPySpace v4 k4 (hbSws _) d29
  have d31 := headM_lit '=' d30
  have d32 := headM_star isPySpace v3 k3 (by apply headNot_of_cons; decide) d31
  have d33 := headM_litsL resultL d32
  have d34 := headM_plus isPySpace v2 k2n k2 (hbResult _) d33
  have d35 := headM_litsL sccrL d34
  have d36 := headM_star isPySpace v1 k1 (hbSccr _) d35
  simpa [mkBody, List.append_assoc] using d36

theorem pat3_found (u1 w2 params w3 w4 : List Char)
    (v1 v2 v3 v4 v5 v6 v7 v8 v9 cond v10 v11 v12 v13 v14 v15 arg v16 s :
      List Char)
    (hu1 : allWS u1) (hu1n : u1 ≠ []) (h2 : allWS w2) (h3 : allWS w3)
    (h4 : allWS w4) (hp : ∀ c ∈ params, (c != ')') = true)
    (k1 : allWS v1) (k2 : allWS v2) (k2n : v2 ≠ []) (k3 : allWS v3)
    (k4 : allWS v4) (k5 : allWS v5) (k6 : allWS v6) (k7 : allWS v7)
    (k8 : allWS v8) (k9 : allWS v9)
    (kc : ∀ c ∈ cond, (c != ')') = true)
    (k10 : allWS v10) (k11 : allWS v11) (k11n : v11 ≠ []) (k12 : allWS v12)
    (k13 : allWS v13) (k14 : allWS v14) (k14n : v14 ≠ []) (k15 : allWS v15)
    (ka : ∀ c ∈ arg, (c != ')') = true) (k16 : allWS v16) :
    tryMatch pat3
      ((mkSig u1 w2 params w3 w4 ++
        mkBody v1 v2 v3 v4 v5 v6 v7 v8 v9 cond v10 v11 v12 v13 v14 v15 arg v16)
        ++ s) =
      some (mkSig u1 w2 params w3 w4,
        mkSig u1 w2 params w3 w4 ++
          mkBody v1 v2 v3 v4 v5 v6 v7 v8 v9 cond v10 v11 v12 v13 v14 v15 arg
            v16,
        s) := by
  have hsig := pat3_sig_headM u1 w2 params w3 w4
    (mkBody v1 v2 v3 v4 v5 v6 v7 v8 v9 cond v10 v11 v12 v13 v14 v15 arg v16
      ++ s) hu1 hu1n h2 h3 h4 hp
  have hbody := pat3_body_headM v1 v2 v3 v4 v5 v6 v7 v8 v9 cond v10 v11 v12
    v13 v14 v15 arg v16 s k1 k2 k2n k3 k4 k5 k6 k7 k8 k9 kc k10 k11 k11n k12
    k13 k14 k14n k15 ka k16
  have hfin := tryMatch_headM hsig hbody
  simpa [List.append_assoc] using hfin

/- ## Coordinator lemmas -/

theorem stepRule_trace (st : RunState) (r : String × (FS → ExecResult × FS)) :
    (stepRule st r).trace = st.trace ++ [r.1] := by
  rcases hr : r.2 st.fs with ⟨er, fs2⟩
  cases er with
  | ok b => cases b <;> simp [stepRule, hr]
  | exn => simp [stepRule, hr]

theorem stepRule_counts (st : RunState)
    (r : String × (FS → ExecResult × FS)) :
    ((stepRule st r).sc = st.sc + 1 ∧ (stepRule st r).fc = st.fc) ∨
      ((stepRule st r).sc = st.sc ∧ (stepRule st r).fc = st.fc + 1) := by
  rcases hr : r.2 st.fs with ⟨er, fs2⟩
  cases er with
  | ok b =>
    cases b
    · exact Or.inr (by simp [stepRule, hr])
    · exact Or.inl (by simp [stepRule, hr])
  | exn => exact Or.inr (by simp [stepRule, hr])

theorem applyAllAux_trace (rules : List (String × (FS → ExecResult × FS))) :
    ∀ st, (applyAllAux rules st).trace = st.trace ++ rules.map Prod.fst := by
  induction rules with
  | nil => intro st; simp [applyAllAux]
  | cons r rest ih =>
    intro st
    simp [applyAllAux, ih, stepRule_trace]

theorem applyAllAux_counts (rules : List (String × (FS → ExecResult × FS))) :
    ∀ st, (applyAllAux rules st).sc + (applyAllAux rules st).fc =
      st.sc + st.fc + rules.length := by
  induction rules with
  | nil => intro st; simp [applyAllAux]
  | cons r rest ih =>
    intro st
    have h1 := ih (stepRule st r)
    have h2 := stepRule_counts st r
    simp only [applyAllAux]
    rcases h2 with ⟨ha, hb⟩ | ⟨ha, hb⟩ <;> rw [h1, ha, hb] <;> simp <;> omega

/- ## Substring-occurrence lemmas -/

theorem prefix_append_cases {t u v : List Char} (h : t <+: u ++ v) :
    t <+: u ∨ ∃ t2, t = u ++ t2 ∧ t2 <+: v := by
  induction u generalizing t with
  | nil => exact Or.inr ⟨t, rfl, h⟩
  | cons y u ih =>
    cases t with
    | nil => exact Or.inl (List.nil_prefix)
    | cons t0 t1 =>
      rw [List.cons_append, List.cons_prefix_cons] at h
      obtain ⟨he, h2⟩ := h
      rcases ih h2 with hl | ⟨t2, ht, hpf⟩
      · exact Or.inl (by rw [he]; exact List.cons_prefix_cons.mpr ⟨rfl, hl⟩)
      · exact Or.inr ⟨t2, by rw [he, ht]; rfl, hpf⟩

theorem isPrefixOf_false_of_not {t l : List Char} (h : ¬ t <+: l) :
    List.isPrefixOf t l = false := by
  rw [← List.isPrefixOf_iff_prefix] at h
  cases hx : List.isPrefixOf t l with
  | true => exact absurd hx h
  | false => rfl

theorem not_prefix_of_isPrefixOf_false {t l : List Char}
    (h : List.isPrefixOf t l = false) : ¬ t <+: l := by
  intro hp
  rw [← List.isPrefixOf_iff_prefix, h] at hp
  exact Bool.false_ne_true hp

theorem not_occurs_append_cons {t : List Char} {ch : Char} (hne : t ≠ [])
    (hch : ch ∉ t) :
    ∀ a b, occurs t a = false → occurs t b = false →
      occurs t (a ++ ch :: b) = false := by
  intro a
  induction a with
  | nil =>
    intro b _ hb
    simp [occurs, hb]
    apply isPrefixOf_false_of_not
    intro hp
    cases t with
    | nil => exact hne rfl
    | cons t0 t1 =>
      rw [List.cons_prefix_cons] at hp
      exact hch (by rw [hp.1]; simp)
  | cons x a2 ih =>
    intro b ha hb
    simp [occurs] at ha
    obtain ⟨ha1, ha2⟩ := ha
    have hrec := ih b (by simpa using ha2) hb
    simp [occurs, hrec]
    apply isPrefixOf_false_of_not
    intro hp
    have hp2 : t <+: (x :: a2) ++ (ch :: b) := hp
    have ha1n := not_prefix_of_isPrefixOf_false ha1
    rcases prefix_append_cases hp2 with hl | ⟨t2, ht, hpf⟩
    · exact ha1n hl
    · cases t2 with
      | nil =>
        rw [List.append_nil] at ht
        exact ha1n (ht ▸ List.prefix_refl _)
      | cons c2 t3 =>
        rw [List.cons_prefix_cons] at hpf
        apply hch
        rw [ht, hpf.1]
        simp

/- ## Concrete states and inputs used in scenarios and counterexamples -/

def emptyFS : FS := ⟨fun _ => none, fun _ => false, fun _ => false⟩

/-- A filesystem with a single file and configurable read/write faults. -/
def mkFSf (path : String) (c : List Char) (rf wf : Bool) : FS :=
  ⟨fun q => if q = path then some c else none, fun _ => rf, fun _ => wf⟩

/-- A pre-patch code-serializer.cc content: the SanityCheck definition. -/
def sanStr : String := "SerializedCodeSanityCheckResult SerializedCodeData::SanityCheck(p) const {SerializedCodeSanityCheckResult result = SanityCheckWithoutSource();if (r) return result;return SanityCheckJustSource(h);}"

/-- Run with empty string.cc and deserializer.cc (their patterns absent) and
a pre-patch code-serializer.cc. -/
def scenarioFS : FS :=
  mkFS3 stringCcPath deserializerCcPath codeSerializerCcPath [] [] sanStr.data

def c4c0Str : String := "if(len>kMaxShortPrintLength if(len>kMaxShortPrintLength){a}){b}"
def c4c1Str : String := "if(len>kMaxShortPrintLength\n){b}"
def c5cStr : String := "if(len>kMaxShortPrintLength){x}\nkMaxShortPrintLength;"
def c6cStr : String := "a;\nCHECK_EQ(magic_number_, SerializedData::kMagicNumber);\nb;\n"
def c6mergedStr : String := "a;b;\n"
def c6keptStr : String := "a;\nb;\n"

/- ## Claim theorems -/

/-- C1: apply_all reports overall success iff success_count > 0, the process
exit code is 0 exactly when apply_all reports success, and a run where
string.cc and deserializer.cc report pattern-not-found while
code-serializer.cc reports applied is overall success with exit code 0. -/
theorem c1_aggregate_success :
    (∀ fs, apply_all_ok fs = true ↔ 0 < (apply_all fs).sc) ∧
    (∀ fs, mainExit fs = 0 ↔ apply_all_ok fs = true) ∧
    (patch_string_cc scenarioFS).1 = Outcome.patternNotFound ∧
    (patch_deserializer_cc (patch_string_cc scenarioFS).2).1 =
      Outcome.patternNotFound ∧
    (patch_code_serializer_cc
      (patch_deserializer_cc (patch_string_cc scenarioFS).2).2).1 =
      Outcome.applied ∧
    (apply_all scenarioFS).sc = 3 ∧ mainExit scenarioFS = 0 := by
  refine ⟨?_, ?_, ?_⟩
  · intro fs
    simp [apply_all_ok]
  · intro fs
    unfold mainExit
    cases h : apply_all_ok fs <;> simp [h]
  · decide

/-- C3 counterexample: a missing target file yields the file-missing outcome,
which the tally counts as a failure, contradicting the claim that every
outcome other than io-error and exception counts as success. -/
theorem c3_counterexample :
    (patch_string_cc emptyFS).1 = Outcome.fileMissing ∧
    outcomeSuccess (patch_string_cc emptyFS).1 = false := by decide

/-- C3 amended: the per-rule result is a failure exactly for the file-missing
and io-error outcomes (exceptions are additionally counted as failures by the
coordinator); pattern-not-found, no-change and applied count as success. -/
theorem c3_amended_hard_failures :
    ∀ path g repl fs,
      outcomeSuccess (runPatch path g repl fs).1 = false ↔
        ((runPatch path g repl fs).1 = Outcome.fileMissing ∨
          (runPatch path g repl fs).1 = Outcome.ioError) := by
  intro path g repl fs
  generalize (runPatch path g repl fs).1 = o
  cases o <;> simp [outcomeSuccess]

/-- C4 amended: for content already in post-patch form (pattern absent, or
substitution reproducing the input) the rule reports success and leaves the
filesystem unchanged.  (The further clause of C4 — a rule applied to its own
output never changes it again — is refuted by `c4_counterexample`.) -/
theorem c4_amended_idempotent :
    ∀ path g repl fs c, fs.files path = some c → fs.readFails path = false →
      (searchSplit g c = none ∨ resub g repl c = c) →
      outcomeSuccess (runPatch path g repl fs).1 = true ∧
      (runPatch path g repl fs).2 = fs := by
  intro path g repl fs c hf hr h
  rcases h with h | h
  · rw [runPatch_noMatch hf hr h]
    exact ⟨rfl, rfl⟩
  · cases hs : searchSplit g c with
    | none =>
      rw [runPatch_noMatch hf hr hs]
      exact ⟨rfl, rfl⟩
    | some x =>
      rw [runPatch_noChange hf hr hs h]
      exact ⟨rfl, rfl⟩

theorem c4_amended_idempotent_witness :
    outcomeSuccess (runPatch stringCcPath pat1 repl1
      (mkFSf stringCcPath [] false false)).1 = true ∧
    (runPatch stringCcPath pat1 repl1 (mkFSf stringCcPath [] false false)).2 =
      mkFSf stringCcPath [] false false :=
  c4_amended_idempotent stringCcPath pat1 repl1
    (mkFSf stringCcPath [] false false) [] (by decide) (by decide)
    (Or.inl (by decide))

/-- C4 counterexample: the string.cc rule applied to its own output changes
the content again (the inserted newline lets the pattern re-match), so the
rule is not idempotent on all of its outputs. -/
theorem c4_counterexample :
    resub pat1 repl1 c4c0Str.data = c4c1Str.data ∧
    resub pat1 repl1 c4c1Str.data ≠ c4c1Str.data ∧
    (patch_string_cc (mkFS1 stringCcPath c4c1Str.data)).1 =
      Outcome.applied := by decide

/-- C8: apply_all invokes every catalogue entry exactly once in catalogue
order, whatever the per-rule results (including exceptions); for the fixed
catalogue the order is string.cc, deserializer.cc, code-serializer.cc. -/
theorem c8_no_skip :
    (∀ rules fs, (applyAllGen rules fs).trace = rules.map Prod.fst) ∧
    (∀ fs, (apply_all fs).trace =
      nameStringCc :: nameDeserializerCc :: nameCodeSerializerCc :: []) := by
  constructor
  · intro rules fs
    simpa using applyAllAux_trace rules ⟨0, 0, fs, []⟩
  · intro fs
    have h := applyAllAux_trace catalogue ⟨0, 0, fs, []⟩
    simpa [apply_all, applyAllGen, catalogue] using h

/-- C10: both counters start at 0, each catalogue entry increments exactly
one of them by one, and at the end success_count + failure_count equals the
catalogue length, which is 3. -/
theorem c10_counter_invariant :
    (∀ st r, ((stepRule st r).sc = st.sc + 1 ∧ (stepRule st r).fc = st.fc) ∨
      ((stepRule st r).sc = st.sc ∧ (stepRule st r).fc = st.fc + 1)) ∧
    (∀ rules fs, (applyAllGen rules fs).sc + (applyAllGen rules fs).fc =
      rules.length) ∧
    (∀ fs, apply_all fs = applyAllAux catalogue ⟨0, 0, fs, []⟩) ∧
    (∀ fs, (apply_all fs).sc + (apply_all fs).fc = 3) := by
  have hgen : ∀ rules fs, (applyAllGen rules fs).sc +
      (applyAllGen rules fs).fc = rules.length := by
    intro rules fs
    simpa using applyAllAux_counts rules ⟨0, 0, fs, []⟩
  refine ⟨fun st r => stepRule_counts st r, hgen, fun fs => rfl, ?_⟩
  intro fs
  simpa [catalogue] using hgen catalogue fs

/-- C2: missing target counts as failure, read and write I/O failures count
as failure, pattern-not-found and a no-op match count as success, and an
exception escaping a rule is caught by the coordinator, counted as a failure,
and does not prevent the remaining rules from running. -/
theorem c2_outcome_classification :
    (∀ path g repl fs, fs.files path = none →
      (runPatch path g repl fs).1 = Outcome.fileMissing ∧
      outcomeSuccess (runPatch path g repl fs).1 = false) ∧
    (∀ path g repl fs c, fs.files path = some c → fs.readFails path = true →
      (runPatch path g repl fs).1 = Outcome.ioError ∧
      outcomeSuccess (runPatch path g repl fs).1 = false) ∧
    (∀ path g repl fs c, fs.files path = some c → fs.readFails path = false →
      searchSplit g c = none →
      (runPatch path g repl fs).1 = Outcome.patternNotFound ∧
      outcomeSuccess (runPatch path g repl fs).1 = true) ∧
    (∀ path g repl fs c x, fs.files path = some c →
      fs.readFails path = false → searchSplit g c = some x →
      resub g repl c = c →
      (runPatch path g repl fs).1 = Outcome.noChange ∧
      outcomeSuccess (runPatch path g repl fs).1 = true) ∧
    (∀ path g repl fs c x, fs.files path = some c →
      fs.readFails path = false → searchSplit g c = some x →
      resub g repl c ≠ c → fs.writeFails path = true →
      (runPatch path g repl fs).1 = Outcome.ioError ∧
      outcomeSuccess (runPatch path g repl fs).1 = false) ∧
    (∀ nm r rest st fs2, r st.fs = (ExecResult.exn, fs2) →
      applyAllAux ((nm, r) :: rest) st =
        applyAllAux rest ⟨st.sc, st.fc + 1, fs2, st.trace ++ [nm]⟩) := by
  refine ⟨?_, ?_, ?_, ?_, ?_, ?_⟩
  · intro path g repl fs hf
    rw [runPatch_missing hf]
    exact ⟨rfl, rfl⟩
  · intro path g repl fs c hf hr
    rw [runPatch_readFail hf hr]
    exact ⟨rfl, rfl⟩
  · intro path g repl fs c hf hr hs
    rw [runPatch_noMatch hf hr hs]
    exact ⟨rfl, rfl⟩
  · intro path g repl fs c x hf hr hs he
    rw [runPatch_noChange hf hr hs he]
    exact ⟨rfl, rfl⟩
  · intro path g repl fs c x hf hr hs he hw
    rw [runPatch_writeFail hf hr hs he hw]
    exact ⟨rfl, rfl⟩
  · intro nm r rest st fs2 hr
    simp [applyAllAux, stepRule, hr]

/-- A toy single-character rule used only to exercise the generic executor's
no-change and write-failure branches in witnesses. -/
def toyRE : GroupedRE := ⟨[], .lit 'a' :: []⟩

theorem c2_outcome_classification_witness :
    ((runPatch stringCcPath pat1 repl1 emptyFS).1 = Outcome.fileMissing ∧
      outcomeSuccess (runPatch stringCcPath pat1 repl1 emptyFS).1 = false) ∧
    ((runPatch stringCcPath pat1 repl1
        (mkFSf stringCcPath [] true false)).1 = Outcome.ioError ∧
      outcomeSuccess (runPatch stringCcPath pat1 repl1
        (mkFSf stringCcPath [] true false)).1 = false) ∧
    ((runPatch stringCcPath pat1 repl1
        (mkFSf stringCcPath [] false false)).1 = Outcome.patternNotFound ∧
      outcomeSuccess (runPatch stringCcPath pat1 repl1
        (mkFSf stringCcPath [] false false)).1 = true) ∧
    ((runPatch stringCcPath toyRE (fun _ => 'a' :: [])
        (mkFSf stringCcPath ('a' :: []) false false)).1 = Outcome.noChange ∧
      outcomeSuccess (runPatch stringCcPath toyRE (fun _ => 'a' :: [])
        (mkFSf stringCcPath ('a' :: []) false false)).1 = true) ∧
    ((runPatch stringCcPath toyRE (fun _ => [])
        (mkFSf stringCcPath ('a' :: []) false true)).1 = Outcome.ioError ∧
      outcomeSuccess (runPatch stringCcPath toyRE (fun _ => [])
        (mkFSf stringCcPath ('a' :: []) false true)).1 = false) ∧
    applyAllAux ((nameStringCc, fun fs => (ExecResult.exn, fs)) :: [])
        ⟨0, 0, emptyFS, []⟩ =
      applyAllAux [] ⟨0, 1, emptyFS, [] ++ [nameStringCc]⟩ := by
  refine ⟨?_, ?_, ?_, ?_, ?_, ?_⟩
  · exact c2_outcome_classification.1 stringCcPath pat1 repl1 emptyFS rfl
  · exact c2_outcome_classification.2.1 stringCcPath pat1 repl1
      (mkFSf stringCcPath [] true false) [] (by decide) (by decide)
  · exact c2_outcome_classification.2.2.1 stringCcPath pat1 repl1
      (mkFSf stringCcPath [] false false) [] (by decide) (by decide)
      (by decide)
  · exact c2_outcome_classification.2.2.2.1 stringCcPath toyRE
      (fun _ => 'a' :: []) (mkFSf stringCcPath ('a' :: []) false false)
      ('a' :: []) ([], [], 'a' :: [], []) (by decide) (by decide) (by decide)
      (by decide)
  · exact c2_outcome_classification.2.2.2.2.1 stringCcPath toyRE
      (fun _ => []) (mkFSf stringCcPath ('a' :: []) false true)
      ('a' :: []) ([], [], 'a' :: [], []) (by decide) (by decide) (by decide)
      (by decide) (by decide)
  · exact c2_outcome_classification.2.2.2.2.2 nameStringCc
      (fun fs => (ExecResult.exn, fs)) [] ⟨0, 0, emptyFS, []⟩ emptyFS rfl

/-- Helper for C9: the executor either leaves the state unchanged or writes
the substituted content to its own path. -/
theorem runPatch_snd_cases (path : String) (g : GroupedRE)
    (repl : List Char → List Char) (fs : FS) :
    (runPatch path g repl fs).2 = fs ∨
    ∃ nc, (runPatch path g repl fs).2 = fs.write path nc := by
  cases hf : fs.files path with
  | none => exact Or.inl (by rw [runPatch_missing hf])
  | some c =>
    cases hr : fs.readFails path with
    | true => exact Or.inl (by rw [runPatch_readFail hf hr])
    | false =>
      cases hs : searchSplit g c with
      | none => exact Or.inl (by rw [runPatch_noMatch hf hr hs])
      | some x =>
        by_cases he : resub g repl c = c
        · exact Or.inl (by rw [runPatch_noChange hf hr hs he])
        · cases hw : fs.writeFails path with
          | true => exact Or.inl (by rw [runPatch_writeFail hf hr hs he hw])
          | false =>
            exact Or.inr ⟨resub g repl c,
              by rw [runPatch_applied hf hr hs he hw]⟩

/-- C9: each executor only ever writes the file at its own fixed relative
path (all other files and the fault flags are untouched), and whenever it
returns before the write step — missing file, read failure, no match, or a
substitution that reproduces the input — the state is entirely unchanged. -/
theorem c9_frame :
    (∀ path g repl fs q, q ≠ path →
      (runPatch path g repl fs).2.files q = fs.files q) ∧
    (∀ path g repl fs,
      (runPatch path g repl fs).2.readFails = fs.readFails ∧
      (runPatch path g repl fs).2.writeFails = fs.writeFails) ∧
    (∀ path g repl fs, fs.files path = none →
      (runPatch path g repl fs).2 = fs) ∧
    (∀ path g repl fs, fs.readFails path = true →
      (runPatch path g repl fs).2 = fs) ∧
    (∀ path g repl fs c, fs.files path = some c →
      fs.readFails path = false → searchSplit g c = none →
      (runPatch path g repl fs).2 = fs) ∧
    (∀ path g repl fs c, fs.files path = some c → resub g repl c = c →
      (runPatch path g repl fs).2 = fs) ∧
    patch_string_cc = runPatch stringCcPath pat1 repl1 ∧
    patch_deserializer_cc = runPatch deserializerCcPath pat2 repl2 ∧
    patch_code_serializer_cc = runPatch codeSerializerCcPath pat3 repl3 := by
  refine ⟨?_, ?_, ?_, ?_, ?_, ?_, rfl, rfl, rfl⟩
  · intro path g repl fs q hq
    rcases runPatch_snd_cases path g repl fs with h | ⟨nc, h⟩
    · rw [h]
    · rw [h]
      simp [FS.write, hq]
  · intro path g repl fs
    rcases runPatch_snd_cases path g repl fs with h | ⟨nc, h⟩
    · rw [h]
      exact ⟨rfl, rfl⟩
    · rw [h]
      exact ⟨rfl, rfl⟩
  · intro path g repl fs hf
    rw [runPatch_missing hf]
  · intro path g repl fs hr
    cases hf : fs.files path with
    | none => rw [runPatch_missing hf]
    | some c => rw [runPatch_readFail hf hr]
  · intro path g repl fs c hf hr hs
    rw [runPatch_noMatch hf hr hs]
  · intro path g repl fs c hf he
    cases hr : fs.readFails path with
    | true => rw [runPatch_readFail hf hr]
    | false =>
      cases hs : searchSplit g c with
      | none => rw [runPatch_noMatch hf hr hs]
      | some x => rw [runPatch_noChange hf hr hs he]

theorem c9_frame_witness :
    (runPatch stringCcPath pat1 repl1
        (mkFS1 stringCcPath c4c1Str.data)).2.files deserializerCcPath =
      (mkFS1 stringCcPath c4c1Str.data).files deserializerCcPath ∧
    (runPatch stringCcPath pat1 repl1 emptyFS).2 = emptyFS ∧
    (runPatch stringCcPath pat1 repl1
        (mkFSf stringCcPath [] true false)).2 =
      mkFSf stringCcPath [] true false ∧
    (runPatch stringCcPath pat1 repl1
        (mkFSf stringCcPath [] false false)).2 =
      mkFSf stringCcPath [] false false := by
  refine ⟨?_, ?_, ?_, ?_⟩
  · exact c9_frame.1 stringCcPath pat1 repl1
      (mkFS1 stringCcPath c4c1Str.data) deserializerCcPath (by decide)
  · exact c9_frame.2.2.1 stringCcPath pat1 repl1 emptyFS rfl
  · exact c9_frame.2.2.2.1 stringCcPath pat1 repl1
      (mkFSf stringCcPath [] true false) rfl
  · exact c9_frame.2.2.2.2.1 stringCcPath pat1 repl1
      (mkFSf stringCcPath [] false false) [] (by decide) (by decide)
      (by decide)

/-- C5 counterexample: content containing the guard block and the literal
kMaxShortPrintLength outside the block; after the rule runs the token is
still present, refuting "the resulting content no longer contains the
guard's distinguishing literal tokens". -/
theorem c5_counterexample :
    (searchSplit pat1 c5cStr.data).isSome = true ∧
    occurs tokL (resub pat1 repl1 c5cStr.data) = true := by decide

/-- C5 amended: if the token occurs only inside the block, no other match
starts inside the prefix, and the suffix is match-free and starts with a
non-whitespace character, then the rule replaces the block — together with
the whitespace run preceding its `if` and the block's trailing newline — by
a single newline, leaves prefix and suffix otherwise intact, and the result
no longer contains kMaxShortPrintLength. -/
theorem c5_amended_deletion
    (p w0 w1 w2 w3 w4 w5 w6 body s : List Char) (fs : FS)
    (h0 : allWS w0) (h1 : allWS w1) (h2 : allWS w2) (h3 : allWS w3)
    (h4 : allWS w4) (h5 : allWS w5) (h6 : allWS w6)
    (hb : ∀ c ∈ body, (c != '}') = true)
    (hsb : headNot isPySpace s = true)
    (hfile : fs.files stringCcPath =
      some (p ++ (mkGuard w0 w1 w2 w3 w4 w5 w6 body ++ s)))
    (hread : fs.readFails stringCcPath = false)
    (hwrite : fs.writeFails stringCcPath = false)
    (hp : noStartIn pat1 p (mkGuard w0 w1 w2 w3 w4 w5 w6 body ++ s) = true)
    (hsc : searchSplit pat1 s = none)
    (htp : occurs tokL p = false) (hts : occurs tokL s = false) :
    (patch_string_cc fs).1 = Outcome.applied ∧
    (patch_string_cc fs).2.files stringCcPath = some (p ++ '\n' :: s) ∧
    occurs tokL (p ++ '\n' :: s) = false := by
  have hm := pat1_found w0 w1 w2 w3 w4 w5 w6 body s h0 h1 h2 h3 h4 h5 h6 hb hsb
  have hss := searchSplit_skip hm hp
  have hsub := resub_one repl1 hp hm hsc
  have hsub2 : resub pat1 repl1
      (p ++ (mkGuard w0 w1 w2 w3 w4 w5 w6 body ++ s)) = p ++ '\n' :: s := by
    rw [hsub]
    simp [repl1]
  have hneq : resub pat1 repl1
      (p ++ (mkGuard w0 w1 w2 w3 w4 w5 w6 body ++ s)) ≠
      p ++ (mkGuard w0 w1 w2 w3 w4 w5 w6 body ++ s) := by
    rw [hsub2]
    intro he
    have hlen := congrArg List.length he
    simp [mkGuard, List.length_append,
      show ifL.length = 2 from rfl, show lenL.length = 3 from rfl,
      show tokL.length = 20 from rfl] at hlen
    omega
  have happ := runPatch_applied hfile hread hss hneq hwrite
  refine ⟨?_, ?_, ?_⟩
  · show (runPatch stringCcPath pat1 repl1 fs).1 = Outcome.applied
    rw [happ]
  · show (runPatch stringCcPath pat1 repl1 fs).2.files stringCcPath = _
    rw [happ]
    simp [FS.write]
    rw [hsub2]
  · exact not_occurs_append_cons (by decide) (by decide) p s htp hts

def c5p : List Char := 'x' :: ';' :: []
def c5s : List Char := 'y' :: ';' :: []
def c5w : List Char := ' ' :: []
def c5body : List Char := 'b' :: ';' :: []
def c5guard : List Char := mkGuard c5w c5w c5w c5w c5w c5w c5w c5body
def c5fs : FS := mkFS1 stringCcPath (c5p ++ (c5guard ++ c5s))

theorem c5_amended_deletion_witness :
    (patch_string_cc c5fs).1 = Outcome.applied ∧
    (patch_string_cc c5fs).2.files stringCcPath = some (c5p ++ '\n' :: c5s) ∧
    occurs tokL (c5p ++ '\n' :: c5s) = false :=
  c5_amended_deletion c5p c5w c5w c5w c5w c5w c5w c5w c5body c5s c5fs
    (by decide) (by decide) (by decide) (by decide) (by decide) (by decide)
    (by decide) (by decide) (by decide) (by decide) (by decide) (by decide)
    (by decide) (by decide) (by decide) (by decide)

/-- C6 counterexample: the pattern's leading and trailing whitespace matching
removes the newlines around the assertion, so the neighbouring lines are
joined ("a;b;") instead of being preserved verbatim ("a;" and "b;" on their
own lines). -/
theorem c6_counterexample :
    resub pat2 repl2 c6cStr.data = c6mergedStr.data ∧
    c6mergedStr.data ≠ c6keptStr.data ∧
    (patch_deserializer_cc (mkFS1 deserializerCcPath c6cStr.data)).2.files
      deserializerCcPath = some c6mergedStr.data := by decide

/-- C6 amended: the rule removes the assertion statement together with the
surrounding whitespace (including the preceding whitespace run and the
trailing newline), joining the adjacent lines; all other characters of the
file are preserved. -/
theorem c6_amended_single_statement
    (p w0 w1 w2 w3 w4 w5 w6 s : List Char) (fs : FS)
    (h0 : allWS w0) (h1 : allWS w1) (h2 : allWS w2) (h3 : allWS w3)
    (h4 : allWS w4) (h5 : allWS w5) (h6 : allWS w6)
    (hsb : headNot isPySpace s = true)
    (hfile : fs.files deserializerCcPath =
      some (p ++ (mkCheck w0 w1 w2 w3 w4 w5 w6 ++ s)))
    (hread : fs.readFails deserializerCcPath = false)
    (hwrite : fs.writeFails deserializerCcPath = false)
    (hp : noStartIn pat2 p (mkCheck w0 w1 w2 w3 w4 w5 w6 ++ s) = true)
    (hsc : searchSplit pat2 s = none) :
    (patch_deserializer_cc fs).1 = Outcome.applied ∧
    (patch_deserializer_cc fs).2.files deserializerCcPath =
      some (p ++ s) := by
  have hm := pat2_found w0 w1 w2 w3 w4 w5 w6 s h0 h1 h2 h3 h4 h5 h6 hsb
  have hss := searchSplit_skip hm hp
  have hsub := resub_one repl2 hp hm hsc
  have hsub2 : resub pat2 repl2
      (p ++ (mkCheck w0 w1 w2 w3 w4 w5 w6 ++ s)) = p ++ s := by
    rw [hsub]
    simp [repl2]
  have hneq : resub pat2 repl2
      (p ++ (mkCheck w0 w1 w2 w3 w4 w5 w6 ++ s)) ≠
      p ++ (mkCheck w0 w1 w2 w3 w4 w5 w6 ++ s) := by
    rw [hsub2]
    intro he
    have hlen := congrArg List.length he
    simp [mkCheck, List.length_append,
      show checkEqL.length = 8 from rfl, show magicL.length = 13 from rfl,
      show serMagicL.length = 28 from rfl] at hlen
    omega
  have happ := runPatch_applied hfile hread hss hneq hwrite
  constructor
  · show (runPatch deserializerCcPath pat2 repl2 fs).1 = Outcome.applied
    rw [happ]
  · show (runPatch deserializerCcPath pat2 repl2 fs).2.files
      deserializerCcPath = _
    rw [happ]
    simp [FS.write]
    rw [hsub2]

def c6p : List Char := 'a' :: ';' :: []
def c6s : List Char := 'b' :: ';' :: []
def c6w : List Char := ' ' :: []
def c6check : List Char := mkCheck c6w c6w c6w c6w c6w c6w c6w
def c6fs : FS := mkFS1 deserializerCcPath (c6p ++ (c6check ++ c6s))

theorem c6_amended_single_statement_witness :
    (patch_deserializer_cc c6fs).1 = Outcome.applied ∧
    (patch_deserializer_cc c6fs).2.files deserializerCcPath =
      some (c6p ++ c6s) :=
  c6_amended_single_statement c6p c6w c6w c6w c6w c6w c6w c6w c6s c6fs
    (by decide) (by decide) (by decide) (by decide) (by decide) (by decide)
    (by decide) (by decide) (by decide) (by decide) (by decide) (by decide)
    (by decide)

/-- C7 counterexample: the first original statement's leading token
SerializedCodeSanityCheckResult necessarily survives the rewrite (it opens
the preserved signature and the inserted return statement), refuting "the
result does not contain any of the three original statements' literal
tokens". -/
theorem c7_counterexample :
    (searchSplit pat3 sanStr.data).isSome = true ∧
    occurs sccrL (resub pat3 repl3 sanStr.data) = true := by decide

/-- C7 amended: the rule preserves the captured signature (up to and
including the opening brace) verbatim, replaces the matched three-statement
body with the fixed return statement, and the fixed replacement itself
contains neither SanityCheckWithoutSource nor SanityCheckJustSource; tokens
that occur in the preserved signature, prefix or suffix persist — in
particular SerializedCodeSanityCheckResult always does. -/
theorem c7_amended_body_replacement
    (p u1 w2 params w3 w4
      v1 v2 v3 v4 v5 v6 v7 v8 v9 cond v10 v11 v12 v13 v14 v15 arg v16 s :
        List Char) (fs : FS)
    (hu1 : allWS u1) (hu1n : u1 ≠ []) (h2 : allWS w2) (h3 : allWS w3)
    (h4 : allWS w4) (hpar : ∀ c ∈ params, (c != ')') = true)
    (k1 : allWS v1) (k2 : allWS v2) (k2n : v2 ≠ []) (k3 : allWS v3)
    (k4 : allWS v4) (k5 : allWS v5) (k6 : allWS v6) (k7 : allWS v7)
    (k8 : allWS v8) (k9 : allWS v9) (kc : ∀ c ∈ cond, (c != ')') = true)
    (k10 : allWS v10) (k11 : allWS v11) (k11n : v11 ≠ []) (k12 : allWS v12)
    (k13 : allWS v13) (k14 : allWS v14) (k14n : v14 ≠ []) (k15 : allWS v15)
    (ka : ∀ c ∈ arg, (c != ')') = true) (k16 : allWS v16)
    (hfile : fs.files codeSerializerCcPath =
      some (p ++ ((mkSig u1 w2 params w3 w4 ++
        mkBody v1 v2 v3 v4 v5 v6 v7 v8 v9 cond v10 v11 v12 v13 v14 v15 arg
          v16) ++ s)))
    (hread : fs.readFails codeSerializerCcPath = false)
    (hwrite : fs.writeFails codeSerializerCcPath = false)
    (hp : noStartIn pat3 p ((mkSig u1 w2 params w3 w4 ++
      mkBody v1 v2 v3 v4 v5 v6 v7 v8 v9 cond v10 v11 v12 v13 v14 v15 arg v16)
        ++ s) = true)
    (hsc : searchSplit pat3 s = none) :
    outcomeSuccess (patch_code_serializer_cc fs).1 = true ∧
    (patch_code_serializer_cc fs).2.files codeSerializerCcPath =
      some (p ++ (mkSig u1 w2 params w3 w4 ++ (tailL ++ s))) ∧
    occurs swsL tailL = false ∧ occurs sjsL tailL = false := by
  have hm := pat3_found u1 w2 params w3 w4 v1 v2 v3 v4 v5 v6 v7 v8 v9 cond
    v10 v11 v12 v13 v14 v15 arg v16 s hu1 hu1n h2 h3 h4 hpar k1 k2 k2n k3 k4
    k5 k6 k7 k8 k9 kc k10 k11 k11n k12 k13 k14 k14n k15 ka k16
  have hss := searchSplit_skip hm hp
  have hsub := resub_one repl3 hp hm hsc
  have hsub2 : resub pat3 repl3
      (p ++ ((mkSig u1 w2 params w3 w4 ++
        mkBody v1 v2 v3 v4 v5 v6 v7 v8 v9 cond v10 v11 v12 v13 v14 v15 arg
          v16) ++ s)) =
      p ++ (mkSig u1 w2 params w3 w4 ++ (tailL ++ s)) := by
    rw [hsub]
    simp [repl3, List.append_assoc]
  by_cases hnc : resub pat3 repl3
      (p ++ ((mkSig u1 w2 params w3 w4 ++
        mkBody v1 v2 v3 v4 v5 v6 v7 v8 v9 cond v10 v11 v12 v13 v14 v15 arg
          v16) ++ s)) =
      p ++ ((mkSig u1 w2 params w3 w4 ++
        mkBody v1 v2 v3 v4 v5 v6 v7 v8 v9 cond v10 v11 v12 v13 v14 v15 arg
          v16) ++ s)
  · have hrun := runPatch_noChange hfile hread hss hnc
    refine ⟨?_, ?_, by decide, by decide⟩
    · show outcomeSuccess (runPatch codeSerializerCcPath pat3 repl3 fs).1 =
        true
      rw [hrun]
      rfl
    · show (runPatch codeSerializerCcPath pat3 repl3 fs).2.files
        codeSerializerCcPath = _
      rw [hrun, hfile, ← hnc, hsub2]
  · have hrun := runPatch_applied hfile hread hss hnc hwrite
    refine ⟨?_, ?_, by decide, by decide⟩
    · show outcomeSuccess (runPatch codeSerializerCcPath pat3 repl3 fs).1 =
        true
      rw [hrun]
      rfl
    · show (runPatch codeSerializerCcPath pat3 repl3 fs).2.files
        codeSerializerCcPath = _
      rw [hrun]
      simp only [FS.write, if_pos rfl]
      simp only [List.append_assoc] at hsub2
      simpa [List.append_assoc] using hsub2

def c7p : List Char := 'x' :: ';' :: []
def c7s : List Char := '}' :: '\n' :: []
def c7w : List Char := ' ' :: []
def c7sigW : List Char := mkSig c7w [] ('h' :: []) [] []
def c7bodyW : List Char :=
  mkBody [] c7w [] [] [] [] [] [] [] ('r' :: []) [] c7w [] [] c7w []
    ('h' :: []) []
def c7fs : FS := mkFS1 codeSerializerCcPath (c7p ++ ((c7sigW ++ c7bodyW) ++ c7s))

theorem c7_amended_body_replacement_witness :
    outcomeSuccess (patch_code_serializer_cc c7fs).1 = true ∧
    (patch_code_serializer_cc c7fs).2.files codeSerializerCcPath =
      some (c7p ++ (c7sigW ++ (tailL ++ c7s))) ∧
    occurs swsL tailL = false ∧ occurs sjsL tailL = false :=
  c7_amended_body_replacement c7p c7w [] ('h' :: []) [] []
    [] c7w [] [] [] [] [] [] [] ('r' :: []) [] c7w [] [] c7w [] ('h' :: []) []
    c7s c7fs
    (by decide) (by decide) (by decide) (by decide) (by decide) (by decide)
    (by decide) (by decide) (by decide) (by decide) (by decide) (by decide)
    (by decide) (by decide) (by decide) (by decide) (by decide) (by decide)
    (by decide) (by decide) (by decide) (by decide) (by decide) (by decide)
    (by decide) (by decide) (by decide) (by decide) (by decide) (by decide)
    (by decide) (by decide)
